import Mathlib

/-!
Verification development for the `web_fetch` HLS relay (`src/server.js`).

The server resolves a channel id against an external JSON directory, fetches
the upstream playlist while impersonating VLC, rewrites each playlist line,
and responds with the rewritten playlist.  We embed the pure parts of the
code (line rewriting, URL resolution, the request handler viewed as a
function of the outcomes of its two outbound fetches) and prove the frozen
claims about them.  The recursive proxy variant of the rewriter and the
`/proxy-m3u8` / `/proxy-segment` endpoints are referenced by the repository
documentation but their code is not under `src/`; those are modelled from
the specification and marked as such.
-/

namespace WebFetch

/-- JavaScript `String.prototype.trim` whitespace predicate (the whitespace
characters relevant to `line.trim()` in `src/server.js:39`). -/
def isJsWs (c : Char) : Bool :=
  c = ' ' || c = '\t' || c = '\n' || c = '\r' ||
  c.toNat = 11 || c.toNat = 12 || c.toNat = 160 ||
  c.toNat = 65279 || c.toNat = 8232 || c.toNat = 8233

/-- Remove trailing JS whitespace (helper for `jsTrim`). -/
def trimRightWs (l : List Char) : List Char :=
  (l.reverse.dropWhile isJsWs).reverse

/-- JavaScript `line.trim()` on the character list of a string. -/
def jsTrim (l : List Char) : List Char :=
  trimRightWs (l.dropWhile isJsWs)

/-- JavaScript `s.startsWith('#')`. -/
def startsHash : List Char → Bool
  | '#' :: _ => true
  | _ => false

/-- The guard of the rewrite map, `src/server.js:39`:
`!line.trim() || line.trim().startsWith('#')`. -/
def guardPass (line : List Char) : Bool :=
  (jsTrim line).isEmpty || startsHash (jsTrim line)

/-! ### WHATWG `new URL(input, base)` model

`src/server.js:42` calls Node's WHATWG URL constructor.  We model it by an
executable simplification: the constructor first trims C0-control/space
characters from both ends of its input and removes every embedded tab,
carriage return and line feed; an input carrying a scheme is absolute, an
input starting with `//` is scheme-relative, an input starting with `/` is
resolved against the base's origin, and any other input is resolved against
the base URL up to its final `/`.  Path normalization (dot segments) and
host canonicalization are not modelled; no claim depends on them. -/

/-- C0 control or space, the characters WHATWG trims from the ends of URL
input. -/
def isC0Space (c : Char) : Bool := c.toNat ≤ 32

/-- Characters WHATWG removes from URL input wherever they occur. -/
def isTabNl (c : Char) : Bool := c = '\t' || c = '\n' || c = '\r'

/-- WHATWG URL input cleaning: trim C0/space from the ends, then strip all
tabs and newlines. -/
def cleanUrl (l : List Char) : List Char :=
  (((l.dropWhile isC0Space).reverse.dropWhile isC0Space).reverse).filter
    (fun c => !(isTabNl c))

/-- Characters allowed after the first in a URL scheme. -/
def isSchemeChar (c : Char) : Bool :=
  c.isAlphanum || c = '+' || c = '-' || c = '.'

/-- Split a URL string into scheme and remainder at the first `:` when the
string begins with a valid scheme, else `none`. -/
def schemeSplit (l : List Char) : Option (List Char × List Char) :=
  match l with
  | [] => none
  | ch :: rest =>
    if ch.isAlpha then
      match rest.dropWhile isSchemeChar with
      | ':' :: r => some (ch :: rest.takeWhile isSchemeChar, r)
      | _ => none
    else none

/-- Everything up to and including the last `/` of a character list
(`targetUrl.substring(0, targetUrl.lastIndexOf('/') + 1)` in
`src/server.js:23`); empty when there is no `/`. -/
def dirOf (l : List Char) : List Char :=
  (l.reverse.dropWhile (fun c => !(c = '/'))).reverse

/-- String-level wrapper for `dirOf`. -/
def upToLastSlash (s : String) : String := String.mk (dirOf s.data)

/-- Resolution on cleaned character lists (helper for `resolveUrl`): `b` is
the cleaned base, `i` the cleaned input. -/
def resolveCore (b i : List Char) : Option String :=
  match schemeSplit i with
  | some _ => some (String.mk i)
  | none =>
    match schemeSplit b with
    | none => none
    | some (sch, rest) =>
      match i with
      | '/' :: '/' :: _ => some (String.mk (sch ++ ':' :: i))
      | '/' :: _ =>
        match rest with
        | '/' :: '/' :: r =>
          some (String.mk (sch ++ ':' :: '/' :: '/' :: (r.takeWhile (fun c => !(c = '/')) ++ i)))
        | _ => none
      | [] => some (String.mk b)
      | _ =>
        match rest with
        | '/' :: '/' :: _ => some (String.mk (dirOf b ++ i))
        | _ => none

/-- Model of `new URL(input, base).toString()`: `none` models a thrown
`TypeError` (caught at `src/server.js:43`). -/
def resolveUrl (base input : String) : Option String :=
  resolveCore (cleanUrl base.data) (cleanUrl input.data)

/-! ### `encodeURIComponent` model (used by the spec-modelled rewriter) -/

/-- Characters `encodeURIComponent` leaves unencoded. -/
def isUnreservedURI (c : Char) : Bool :=
  c.isAlphanum || c = '-' || c = '_' || c = '.' || c = '!' || c = '~' ||
  c = '*' || c.toNat = 39 || c = '(' || c = ')'

/-- The sixteen uppercase hexadecimal digits. -/
def hexDigits : List Char :=
  ['0', '1', '2', '3', '4', '5', '6', '7', '8', '9', 'A', 'B', 'C', 'D', 'E', 'F']

/-- Uppercase hexadecimal digit for a value below 16. -/
def hexDigit (n : Nat) : Char := hexDigits.getD n '0'

/-- UTF-8 byte sequence of a character. -/
def utf8Bytes (c : Char) : List Nat :=
  let v := c.toNat
  if v < 128 then [v]
  else if v < 2048 then [192 + v / 64, 128 + v % 64]
  else if v < 65536 then [224 + v / 4096, 128 + (v / 64) % 64, 128 + v % 64]
  else [240 + v / 262144, 128 + (v / 4096) % 64, 128 + (v / 64) % 64, 128 + v % 64]

/-- Percent-encode a byte list. -/
def encBytes : List Nat → List Char
  | [] => []
  | b :: bs => '%' :: hexDigit (b / 16) :: hexDigit (b % 16) :: encBytes bs

/-- Encoding of a single character under `encodeURIComponent`. -/
def encChar (c : Char) : List Char :=
  if isUnreservedURI c then [c] else encBytes (utf8Bytes c)

/-- Encode each character of a list (helper for `encodeURIComponent`). -/
def encodeList : List Char → List Char
  | [] => []
  | c :: cs => encChar c ++ encodeList cs

/-- JavaScript `encodeURIComponent`. -/
def encodeURIComponent (s : String) : String := String.mk (encodeList s.data)

/-! ### Playlist rewriting -/

/-- Per-line rewrite of `src/server.js:38-46` (the variant under `src/`):
comment/blank lines pass through; other lines become the absolute resolved
URL, or pass through when URL resolution throws. -/
def rewriteLine (baseUrl line : String) : String :=
  if guardPass line.data then line
  else
    match resolveUrl baseUrl line with
    | some u => u
    | none => line

/-- Whether the first list is a leading segment of the second (helper for
the JS `includes` model). -/
def startsWithList : List Char → List Char → Bool
  | [], _ => true
  | _ :: _, [] => false
  | p :: ps, x :: xs => p = x && startsWithList ps xs

/-- JavaScript `s.includes(pat)`: the pattern occurs as a contiguous
substring. -/
def hasSub (pat : List Char) : List Char → Bool
  | [] => pat.isEmpty
  | x :: xs => startsWithList pat (x :: xs) || hasSub pat xs

/-- Modelled from the spec: the recursive-proxy per-line rewrite (spec §3
"Rewritten Reference" and §4.3).  The code of this rewriter variant is not
under `src/` (only the repository's integration guide references the
`/proxy-m3u8` and `/proxy-segment` routes it produces).  A reference line
containing `.m3u8` (checked on the original trimmed line text) becomes
`relayBase/proxy-m3u8?url=` plus the component-encoded absolute URL, one
containing `.ts` becomes `relayBase/proxy-segment?url=` plus the encoding,
and any other reference becomes the bare absolute URL. -/
def rewriteLineFull (baseUrl relayBase line : String) : String :=
  if guardPass line.data then line
  else
    match resolveUrl baseUrl line with
    | none => line
    | some abs =>
      if hasSub (String.data ".m3u8") (jsTrim line.data) then
        relayBase ++ "/proxy-m3u8?url=" ++ encodeURIComponent abs
      else if hasSub (String.data ".ts") (jsTrim line.data) then
        relayBase ++ "/proxy-segment?url=" ++ encodeURIComponent abs
      else abs

/-- JavaScript `text.split(c)` on character lists: split at every
occurrence of the separator, keeping empty pieces. -/
def splitSep (c : Char) : List Char → List (List Char)
  | [] => [[]]
  | x :: xs =>
    if x = c then [] :: splitSep c xs
    else
      match splitSep c xs with
      | [] => [[x]]
      | l :: ls => (x :: l) :: ls

/-- JavaScript `pieces.join(c)` on character lists. -/
def interSep (c : Char) : List (List Char) → List Char
  | [] => []
  | [l] => l
  | l :: l2 :: ls => l ++ c :: interSep c (l2 :: ls)

/-- `m3u8Content.split('\n')` of `src/server.js:37`. -/
def splitLines (s : String) : List String :=
  (splitSep '\n' s.data).map String.mk

/-- `newLines.join('\n')` of `src/server.js:48`. -/
def joinLines (ls : List String) : String :=
  String.mk (interSep '\n' (ls.map String.data))

/-- Number of newline-separated lines of a string. -/
def countLines (s : String) : Nat := (splitLines s).length

/-- The whole rewrite pipeline of `src/server.js:37-48`:
split on `'\n'`, map the per-line rewrite, join with `'\n'`. -/
def rewriteAllSimple (baseUrl text : String) : String :=
  joinLines ((splitLines text).map (rewriteLine baseUrl))

/-- Modelled from the spec: the full `rewrite(playlistText, baseUrl,
relayBase)` contract of spec §4.3, using the recursive-proxy per-line
rewrite; the code of this variant is not under `src/`. -/
def rewriteFullText (text baseUrl relayBase : String) : String :=
  joinLines ((splitLines text).map (rewriteLineFull baseUrl relayBase))

/-! ### The `/get-stream/:id` handler -/

/-- A channel record of the external directory (`{id, url}`). -/
structure Channel where
  id : String
  url : String
deriving DecidableEq, Repr

/-- Outcome of the directory fetch `axios.get(DATA_URL)` at
`src/server.js:17` as observed by the handler: a parsed channel list, a
2xx body without a proper `channels` array (the subsequent `.find` throws
a TypeError carrying no HTTP response), a non-2xx HTTP status (axios
throws with `error.response.status`), or a transport error (axios throws
without `error.response`). -/
inductive DirResult where
  | ok (channels : List Channel)
  | malformed
  | httpErr (status : Nat)
  | netErr
deriving DecidableEq, Repr

/-- Outcome of the playlist fetch `axios.get(targetUrl, ...)` at
`src/server.js:27`. -/
inductive StreamResult where
  | ok (body : String)
  | httpErr (status : Nat)
  | netErr
deriving DecidableEq, Repr

/-- An outbound HTTP request issued by the handler: target URL and the
explicitly set request headers. -/
structure Request where
  url : String
  headers : List (String × String)
deriving DecidableEq, Repr

/-- The relay's HTTP response: status, the headers the handler itself sets
(`src/server.js:51-54` sets exactly Content-Type and
Access-Control-Allow-Origin on the success path), and the body. -/
structure Response where
  status : Nat
  contentType : Option String := none
  accessControlAllowOrigin : Option String := none
  cacheControl : Option String := none
  body : String
deriving DecidableEq, Repr

/-- The hardcoded directory URL (`src/server.js:8`). -/
def DATA_URL : String :=
  "https://raw.githubusercontent.com/devmujahidul/Auto_Fetch/refs/heads/main/output.json"

/-- Headers of the playlist fetch (`src/server.js:28-32`). -/
def playlistRequestHeaders : List (String × String) :=
  [("User-Agent", "VLC/3.0.18 LibVLC/3.0.18"),
   ("Accept", "*/*"),
   ("Connection", "keep-alive")]

/-- The directory fetch request: `axios.get(DATA_URL)` sets no custom
headers (`src/server.js:17`). -/
def dirRequest : Request := ⟨DATA_URL, []⟩

/-- Body of the 403 response (`src/server.js:63`). -/
def forbiddenBody : String :=
  "Access Denied: The token in the JSON file is likely IP-locked to the GitHub server and cannot be used on this network."

/-- Body of the generic 500 response (`src/server.js:65`). -/
def genericErrorBody : String := "Error fetching stream"

/-- Body of the 404 response (`src/server.js:20`). -/
def notFoundBody : String := "Channel ID not found"

/-- The catch block of the handler (`src/server.js:58-67`); the argument is
`error.response.status` when the thrown error carries an HTTP response and
`none` otherwise. -/
def catchResponse (errStatus : Option Nat) : Response :=
  if errStatus = some 403 then { status := 403, body := forbiddenBody }
  else { status := 500, body := genericErrorBody }

/-- The `/get-stream/:id` handler (`src/server.js:12-68`) as a function of
the outcome of its two outbound fetches; the second component is the list
of outbound requests it issued, in order. -/
def getStream (dir : DirResult) (fetch : String → StreamResult)
    (requestedId : String) : Response × List Request :=
  match dir with
  | .netErr => (catchResponse none, [dirRequest])
  | .malformed => (catchResponse none, [dirRequest])
  | .httpErr s => (catchResponse (some s), [dirRequest])
  | .ok channels =>
    match channels.find? (fun item => item.id == requestedId) with
    | none => ({ status := 404, body := notFoundBody }, [dirRequest])
    | some channel =>
      let targetUrl := channel.url
      let baseUrl := upToLastSlash targetUrl
      let reqs := [dirRequest, ⟨targetUrl, playlistRequestHeaders⟩]
      match fetch targetUrl with
      | .netErr => (catchResponse none, reqs)
      | .httpErr s => (catchResponse (some s), reqs)
      | .ok body =>
        ({ status := 200,
           contentType := some "application/vnd.apple.mpegurl",
           accessControlAllowOrigin := some "*",
           cacheControl := none,
           body := rewriteAllSimple baseUrl body }, reqs)

/-- Modelled from the spec: the `GET /proxy-m3u8?url=...` handler (spec
§4.4, §6); its code is not under `src/` (only the integration guide
references the route).  A missing `url` parameter yields HTTP 400; a fetch
failure yields HTTP 500; success responds like the master endpoint with
the playlist rewritten against the decoded URL's directory. -/
def proxyM3u8 (urlParam : Option String) (relayBase : String)
    (fetch : String → StreamResult) : Response :=
  match urlParam with
  | none => { status := 400, body := "Missing url parameter" }
  | some target =>
    match fetch target with
    | .ok body =>
      { status := 200,
        contentType := some "application/vnd.apple.mpegurl",
        accessControlAllowOrigin := some "*",
        cacheControl := some "no-cache",
        body := rewriteFullText body (upToLastSlash target) relayBase }
    | _ => { status := 500, body := genericErrorBody }

/-- Modelled from the spec: the `GET /proxy-segment?url=...` handler (spec
§4.4, §6); its code is not under `src/` (only the integration guide
references the route).  A missing `url` parameter yields HTTP 400; a fetch
failure yields HTTP 500; success streams the segment body through with
segment headers. -/
def proxySegment (urlParam : Option String)
    (fetch : String → StreamResult) : Response :=
  match urlParam with
  | none => { status := 400, body := "Missing url parameter" }
  | some target =>
    match fetch target with
    | .ok body =>
      { status := 200,
        contentType := some "video/mp2t",
        accessControlAllowOrigin := some "*",
        cacheControl := some "public, max-age=3600",
        body := body }
    | _ => { status := 500, body := genericErrorBody }

/-! ### Helper lemmas: lists, splitting and joining -/

theorem mem_of_mem_dropWhileL {p : Char → Bool} {a : Char} :
    ∀ {l : List Char}, a ∈ l.dropWhile p → a ∈ l := by
  intro l
  induction l with
  | nil => simp [List.dropWhile]
  | cons x xs ih =>
    rw [List.dropWhile_cons]
    split
    · intro h; exact List.mem_cons_of_mem _ (ih h)
    · exact id

theorem mem_of_mem_takeWhileL {p : Char → Bool} {a : Char} :
    ∀ {l : List Char}, a ∈ l.takeWhile p → a ∈ l := by
  intro l
  induction l with
  | nil => simp [List.takeWhile]
  | cons x xs ih =>
    rw [List.takeWhile_cons]
    split
    · intro h
      rcases List.mem_cons.mp h with h | h
      · exact h ▸ List.mem_cons_self x xs
      · exact List.mem_cons_of_mem _ (ih h)
    · intro h; exact absurd h (List.not_mem_nil a)

theorem dropWhile_append_single {p : Char → Bool} {a : Char} (ha : p a = false) :
    ∀ l : List Char, (l ++ [a]).dropWhile p = l.dropWhile p ++ [a] := by
  intro l
  induction l with
  | nil => simp [List.dropWhile_cons, ha]
  | cons x xs ih =>
    cases hpx : p x with
    | true => simp [List.cons_append, List.dropWhile_cons, hpx, ih]
    | false => simp [List.cons_append, List.dropWhile_cons, hpx]

theorem splitSep_ne_nil (c : Char) : ∀ l, splitSep c l ≠ [] := by
  intro l
  cases l with
  | nil => simp [splitSep]
  | cons x xs =>
    unfold splitSep
    split
    · simp
    · split <;> simp

theorem not_mem_of_mem_splitSep {c : Char} :
    ∀ {l p : List Char}, p ∈ splitSep c l → c ∉ p := by
  intro l
  induction l with
  | nil =>
    intro p hp
    simp only [splitSep, List.mem_singleton] at hp
    subst hp; simp
  | cons x xs ih =>
    intro p hp
    unfold splitSep at hp
    by_cases hx : x = c
    · rw [if_pos hx] at hp
      rcases List.mem_cons.mp hp with h | h
      · subst h; simp
      · exact ih h
    · rw [if_neg hx] at hp
      cases hsp : splitSep c xs with
      | nil => exact absurd hsp (splitSep_ne_nil c xs)
      | cons l0 ls =>
        rw [hsp] at hp
        rcases List.mem_cons.mp hp with h | h
        · subst h
          intro hc
          rcases List.mem_cons.mp hc with h0 | h0
          · exact hx h0.symm
          · exact ih (hsp ▸ List.mem_cons_self l0 ls) h0
        · exact ih (hsp ▸ List.mem_cons_of_mem l0 h)

theorem splitSep_eq_single {c : Char} : ∀ {l}, c ∉ l → splitSep c l = [l] := by
  intro l
  induction l with
  | nil => intro _; rfl
  | cons x xs ih =>
    intro h
    have hx : ¬ x = c := fun e => h (e ▸ List.mem_cons_self x xs)
    unfold splitSep
    rw [if_neg hx, ih (fun hc => h (List.mem_cons_of_mem x hc))]

theorem splitSep_append_sep {c : Char} :
    ∀ {l : List Char} (ys : List Char), c ∉ l →
      splitSep c (l ++ c :: ys) = l :: splitSep c ys := by
  intro l
  induction l with
  | nil => intro ys _; simp [splitSep]
  | cons x xs ih =>
    intro ys h
    have hx : ¬ x = c := fun e => h (e ▸ List.mem_cons_self x xs)
    have hxs : c ∉ xs := fun hc => h (List.mem_cons_of_mem x hc)
    rw [List.cons_append]
    conv_lhs => unfold splitSep
    rw [if_neg hx, ih ys hxs]

theorem splitSep_interSep {c : Char} :
    ∀ (ls : List (List Char)), ls ≠ [] → (∀ p ∈ ls, c ∉ p) →
      splitSep c (interSep c ls) = ls := by
  intro ls
  induction ls with
  | nil => intro h _; exact absurd rfl h
  | cons l ls ih =>
    intro _ hmem
    cases ls with
    | nil =>
      rw [show interSep c [l] = l from rfl]
      exact splitSep_eq_single (hmem l (List.mem_cons_self l []))
    | cons l2 ls2 =>
      rw [show interSep c (l :: l2 :: ls2) = l ++ c :: interSep c (l2 :: ls2) from rfl]
      rw [splitSep_append_sep _ (hmem l (List.mem_cons_self _ _))]
      rw [ih (by simp) (fun p hp => hmem p (List.mem_cons_of_mem l hp))]

theorem countLines_joinLines_map (f : String → String) (s : String)
    (hf : ∀ l ∈ splitSep '\n' s.data, '\n' ∉ (f (String.mk l)).data) :
    countLines (joinLines ((splitLines s).map f)) = countLines s := by
  unfold countLines joinLines splitLines
  rw [List.map_map, List.map_map]
  dsimp only
  rw [splitSep_interSep _ (by simp [splitSep_ne_nil])
    (by
      intro p hp
      rcases List.mem_map.mp hp with ⟨l, hl, hpe⟩
      exact hpe ▸ hf l hl)]
  simp

/-! ### Helper lemmas: URL resolution and encoding emit no newline -/

theorem nl_not_mem_cleanUrl (l : List Char) : '\n' ∉ cleanUrl l := by
  unfold cleanUrl
  intro h
  have h2 := (List.mem_filter.mp h).2
  exact absurd h2 (by decide)

theorem mem_of_mem_dirOf {a : Char} {l : List Char} : a ∈ dirOf l → a ∈ l := by
  unfold dirOf
  intro h
  rw [List.mem_reverse] at h
  exact List.mem_reverse.mp (mem_of_mem_dropWhileL h)

theorem schemeSplit_eq {l s r : List Char} (h : schemeSplit l = some (s, r)) :
    l = s ++ ':' :: r := by
  cases l with
  | nil => exact absurd h (by simp [schemeSplit])
  | cons ch rest =>
    have h' : (if ch.isAlpha then
        (match rest.dropWhile isSchemeChar with
          | ':' :: r' => some (ch :: rest.takeWhile isSchemeChar, r')
          | _ => none)
      else none) = some (s, r) := h
    by_cases ha : ch.isAlpha
    · rw [if_pos ha] at h'
      split at h'
      · rename_i r' heq
        injection h' with h'
        injection h' with hs hr
        subst hs; subst hr
        rw [List.cons_append, ← heq, List.takeWhile_append_dropWhile]
      · exact absurd h' (by simp)
    · rw [if_neg ha] at h'
      exact absurd h' (by simp)

theorem nl_not_mem_resolveCore {b i : List Char} {u : String}
    (hb : '\n' ∉ b) (hi : '\n' ∉ i) (h : resolveCore b i = some u) :
    '\n' ∉ u.data := by
  unfold resolveCore at h
  split at h
  · injection h with h
    subst h
    exact hi
  · split at h
    · exact absurd h (by simp)
    · rename_i sch rest hsch
      have hbe := schemeSplit_eq hsch
      have hsch_nl : '\n' ∉ sch := fun hx => hb (hbe ▸ List.mem_append.mpr (Or.inl hx))
      have hrest_nl : '\n' ∉ rest := fun hx =>
        hb (hbe ▸ List.mem_append.mpr (Or.inr (List.mem_cons_of_mem _ hx)))
      split at h
      · injection h with h
        subst h
        intro hmem
        rcases List.mem_append.mp hmem with h1 | h1
        · exact hsch_nl h1
        · rcases List.mem_cons.mp h1 with h2 | h2
          · exact absurd h2 (by decide)
          · exact hi h2
      · split at h
        · rename_i r tl
          injection h with h
          subst h
          intro hmem
          rcases List.mem_append.mp hmem with h1 | h1
          · exact hsch_nl h1
          rcases List.mem_cons.mp h1 with h2 | h1
          · exact absurd h2 (by decide)
          rcases List.mem_cons.mp h1 with h2 | h1
          · exact absurd h2 (by decide)
          rcases List.mem_cons.mp h1 with h2 | h1
          · exact absurd h2 (by decide)
          rcases List.mem_append.mp h1 with h2 | h2
          · exact hrest_nl (List.mem_cons_of_mem _
              (List.mem_cons_of_mem _ (mem_of_mem_takeWhileL h2)))
          · exact hi h2
        · exact absurd h (by simp)
      · injection h with h
        subst h
        exact hb
      · split at h
        · injection h with h
          subst h
          intro hmem
          rcases List.mem_append.mp hmem with h1 | h1
          · exact hb (mem_of_mem_dirOf h1)
          · exact hi h1
        · exact absurd h (by simp)

theorem nl_not_mem_resolveUrl {b s u : String} (h : resolveUrl b s = some u) :
    '\n' ∉ u.data :=
  nl_not_mem_resolveCore (nl_not_mem_cleanUrl b.data) (nl_not_mem_cleanUrl s.data) h

/-! ### Helper lemmas: encoding emits no newline -/

theorem getD_mem_or_default (l : List Char) (d : Char) :
    ∀ n, l.getD n d ∈ l ∨ l.getD n d = d := by
  induction l with
  | nil => intro n; right; simp [List.getD]
  | cons x xs ih =>
    intro n
    cases n with
    | zero => left; simp
    | succ m =>
      rw [List.getD_cons_succ]
      rcases ih m with h | h
      · exact Or.inl (List.mem_cons_of_mem x h)
      · exact Or.inr h

theorem hexDigit_ne_nl (n : Nat) : hexDigit n ≠ '\n' := by
  unfold hexDigit
  rcases getD_mem_or_default hexDigits '0' n with h | h
  · intro he
    rw [he] at h
    exact absurd h (by decide)
  · rw [h]
    decide

theorem nl_not_mem_encBytes : ∀ bs : List Nat, '\n' ∉ encBytes bs := by
  intro bs
  induction bs with
  | nil => simp [encBytes]
  | cons b bs ih =>
    unfold encBytes
    intro h
    rcases List.mem_cons.mp h with h | h
    · exact absurd h (by decide)
    rcases List.mem_cons.mp h with h | h
    · exact hexDigit_ne_nl _ h.symm
    rcases List.mem_cons.mp h with h | h
    · exact hexDigit_ne_nl _ h.symm
    · exact ih h

theorem nl_not_mem_encChar (c : Char) : '\n' ∉ encChar c := by
  unfold encChar
  split
  · rename_i hu
    intro h
    rw [List.mem_singleton] at h
    subst h
    exact absurd hu (by decide)
  · exact nl_not_mem_encBytes _

theorem nl_not_mem_encodeList : ∀ l : List Char, '\n' ∉ encodeList l := by
  intro l
  induction l with
  | nil => simp [encodeList]
  | cons c cs ih =>
    unfold encodeList
    intro h
    rcases List.mem_append.mp h with h | h
    · exact nl_not_mem_encChar c h
    · exact ih h

/-! ### Helper lemmas: the comment/blank guard -/

theorem jsTrim_hash_head (xs : List Char) :
    jsTrim ('#' :: xs) = '#' :: (xs.reverse.dropWhile isJsWs).reverse := by
  unfold jsTrim trimRightWs
  have h1 : List.dropWhile isJsWs ('#' :: xs) = '#' :: xs := by
    rw [List.dropWhile_cons]
    simp [show isJsWs '#' = false from by decide]
  rw [h1, List.reverse_cons, dropWhile_append_single (by decide), List.reverse_append]
  simp

theorem guardPass_of_trim {l : List Char}
    (h : jsTrim l = [] ∨ startsHash (jsTrim l) = true) : guardPass l = true := by
  unfold guardPass
  rcases h with h | h
  · simp [h]
  · simp [h]

theorem rewriteLine_of_guard {base line : String} (h : guardPass line.data = true) :
    rewriteLine base line = line := by
  unfold rewriteLine
  simp [h]

theorem rewriteLineFull_of_guard {base relay line : String}
    (h : guardPass line.data = true) : rewriteLineFull base relay line = line := by
  unfold rewriteLineFull
  simp [h]

/-! ### Helper lemmas: per-line rewriting emits no newline -/

theorem nl_not_mem_rewriteLine {base : String} {l : List Char} (hl : '\n' ∉ l) :
    '\n' ∉ (rewriteLine base (String.mk l)).data := by
  unfold rewriteLine
  split
  · exact hl
  · split
    · rename_i u heq
      exact nl_not_mem_resolveUrl heq
    · exact hl

theorem nl_not_mem_rewriteLineFull {base relay : String} {l : List Char}
    (hr : '\n' ∉ relay.data) (hl : '\n' ∉ l) :
    '\n' ∉ (rewriteLineFull base relay (String.mk l)).data := by
  unfold rewriteLineFull
  split
  · exact hl
  · split
    · exact hl
    · rename_i abs heq
      split
      · intro hmem
        rw [String.data_append, String.data_append] at hmem
        rcases List.mem_append.mp hmem with hmem | hmem
        rcases List.mem_append.mp hmem with hmem | hmem
        · exact hr hmem
        · exact absurd hmem (by decide)
        · exact nl_not_mem_encodeList abs.data hmem
      · split
        · intro hmem
          rw [String.data_append, String.data_append] at hmem
          rcases List.mem_append.mp hmem with hmem | hmem
          rcases List.mem_append.mp hmem with hmem | hmem
          · exact hr hmem
          · exact absurd hmem (by decide)
          · exact nl_not_mem_encodeList abs.data hmem
        · exact nl_not_mem_resolveUrl heq

/-! ### Helper lemma: first match of a linear search -/

theorem find?_append_first {p : Channel → Bool} :
    ∀ (pre : List Channel) (ch : Channel) (post : List Channel),
      (∀ x ∈ pre, p x = false) → p ch = true →
      List.find? p (pre ++ ch :: post) = some ch := by
  intro pre
  induction pre with
  | nil =>
    intro ch post _ hch
    rw [List.nil_append]
    exact List.find?_cons_of_pos _ hch
  | cons a l ih =>
    intro ch post hpre hch
    rw [List.cons_append, List.find?_cons_of_neg]
    · exact ih ch post (fun x hx => hpre x (List.mem_cons_of_mem a hx)) hch
    · simp [hpre a (List.mem_cons_self a l)]

/-! ### Auxiliary facts for the claims -/

theorem startsHash_eq {l : List Char} (h : startsHash l = true) :
    ∃ xs, l = '#' :: xs := by
  unfold startsHash at h
  split at h
  · rename_i xs
    exact ⟨xs, rfl⟩
  · exact absurd h (by simp)

/-! ### The claims -/

/-- C1: a reference line (trimmed text non-empty and not starting with `#`)
whose URL resolution succeeds is classified on the original trimmed line
text: containing `.m3u8` it becomes `relayBase/proxy-m3u8?url=` plus the
percent-encoded absolute URL, containing `.ts` (and not `.m3u8`) it becomes
`relayBase/proxy-segment?url=` plus the encoding, otherwise it becomes the
bare absolute URL. -/
theorem claim1_reference_line_classes
    (base relay line u : String)
    (hne : jsTrim line.data ≠ [])
    (hns : startsHash (jsTrim line.data) = false)
    (hres : resolveUrl base line = some u) :
    (hasSub (String.data ".m3u8") (jsTrim line.data) = true →
      rewriteLineFull base relay line =
        relay ++ "/proxy-m3u8?url=" ++ encodeURIComponent u) ∧
    (hasSub (String.data ".m3u8") (jsTrim line.data) = false →
      hasSub (String.data ".ts") (jsTrim line.data) = true →
      rewriteLineFull base relay line =
        relay ++ "/proxy-segment?url=" ++ encodeURIComponent u) ∧
    (hasSub (String.data ".m3u8") (jsTrim line.data) = false →
      hasSub (String.data ".ts") (jsTrim line.data) = false →
      rewriteLineFull base relay line = u) := by
  have hguard : guardPass line.data = false := by
    unfold guardPass
    rw [hns]
    simp [List.isEmpty_iff, hne]
  refine ⟨fun h1 => ?_, fun h1 h2 => ?_, fun h1 h2 => ?_⟩
  · unfold rewriteLineFull
    simp [hguard, hres, h1]
  · unfold rewriteLineFull
    simp [hguard, hres, h1, h2]
  · unfold rewriteLineFull
    simp [hguard, hres, h1, h2]

/-- Witness for C1 at the specification's worked example. -/
theorem claim1_witness :
    jsTrim (String.data "chunk0.ts") ≠ [] ∧
    startsHash (jsTrim (String.data "chunk0.ts")) = false ∧
    resolveUrl "https://origin.example/path/" "chunk0.ts" =
      some "https://origin.example/path/chunk0.ts" ∧
    rewriteLineFull "https://origin.example/path/" "https://relay.example" "chunk0.ts" =
      "https://relay.example/proxy-segment?url=https%3A%2F%2Forigin.example%2Fpath%2Fchunk0.ts" := by
  refine ⟨by decide, by decide, by decide, ?_⟩
  have h := (claim1_reference_line_classes "https://origin.example/path/"
    "https://relay.example" "chunk0.ts" "https://origin.example/path/chunk0.ts"
    (by decide) (by decide) (by decide)).2.1 (by decide) (by decide)
  rw [h]
  decide

/-- C2 (spec-modelled): requests to `/proxy-m3u8` or `/proxy-segment` whose
`url` query parameter is absent get HTTP 400. -/
theorem claim2_missing_url_400
    (relay : String) (fetch : String → StreamResult) :
    (proxyM3u8 none relay fetch).status = 400 ∧
    (proxySegment none fetch).status = 400 :=
  ⟨rfl, rfl⟩

/-- C3: when the upstream playlist fetch fails with HTTP 403, `/get-stream`
responds 403 (not 500) with a body distinct from the generic failure
message. -/
theorem claim3_upstream_403_surfaces
    (channels : List Channel) (fetch : String → StreamResult)
    (requestedId : String) (ch : Channel)
    (hfind : channels.find? (fun item => item.id == requestedId) = some ch)
    (h403 : fetch ch.url = .httpErr 403) :
    (getStream (.ok channels) fetch requestedId).1.status = 403 ∧
    (getStream (.ok channels) fetch requestedId).1.body = forbiddenBody ∧
    forbiddenBody ≠ genericErrorBody := by
  refine ⟨?_, ?_, by decide⟩ <;> simp [getStream, hfind, h403, catchResponse]

/-- Witness for C3: one-channel directory, upstream rejecting with 403. -/
theorem claim3_witness :
    (List.find? (fun item => item.id == "ch1")
        [Channel.mk "ch1" "https://origin.example/path/live.m3u8"] =
      some (Channel.mk "ch1" "https://origin.example/path/live.m3u8")) ∧
    (getStream (.ok [Channel.mk "ch1" "https://origin.example/path/live.m3u8"])
        (fun _ => .httpErr 403) "ch1").1.status = 403 := by
  refine ⟨by decide, ?_⟩
  exact (claim3_upstream_403_surfaces _ (fun _ => .httpErr 403) "ch1"
    (Channel.mk "ch1" "https://origin.example/path/live.m3u8") (by decide) rfl).1

/-- C4: `/get-stream` resolves the id by a linear search for the first
record with exactly equal id; with no match it responds 404 with a
distinctive body, whatever else the directory holds. -/
theorem claim4_linear_search_404
    (channels : List Channel) (fetch : String → StreamResult) (requestedId : String) :
    ((∀ c ∈ channels, c.id ≠ requestedId) →
      (getStream (.ok channels) fetch requestedId).1.status = 404 ∧
      (getStream (.ok channels) fetch requestedId).1.body = notFoundBody ∧
      notFoundBody ≠ forbiddenBody ∧ notFoundBody ≠ genericErrorBody) ∧
    (∀ pre ch post, channels = pre ++ ch :: post →
      (∀ c ∈ pre, c.id ≠ requestedId) → ch.id = requestedId →
      (getStream (.ok channels) fetch requestedId).2 =
        [dirRequest, ⟨ch.url, playlistRequestHeaders⟩]) := by
  constructor
  · intro hall
    have hnone : channels.find? (fun item => item.id == requestedId) = none := by
      rw [List.find?_eq_none]
      intro x hx
      simp [hall x hx]
    refine ⟨?_, ?_, by decide, by decide⟩ <;> simp [getStream, hnone]
  · intro pre ch post hch hpre hid
    have hfind : channels.find? (fun item => item.id == requestedId) = some ch := by
      rw [hch]
      exact find?_append_first pre ch post (fun x hx => by simp [hpre x hx]) (by simp [hid])
    cases hfetch : fetch ch.url with
    | ok body => simp [getStream, hfind, hfetch]
    | httpErr s => simp [getStream, hfind, hfetch]
    | netErr => simp [getStream, hfind, hfetch]

/-- Witness for C4: an unknown id gives 404; with duplicate matching ids the
first record's url is fetched. -/
theorem claim4_witness :
    (getStream (.ok [Channel.mk "x" "u"]) (fun _ => .netErr) "ch").1.status = 404 ∧
    (getStream
        (.ok [Channel.mk "a" "https://h/p/a.m3u8", Channel.mk "b" "https://h/p/b.m3u8",
              Channel.mk "b" "https://h/q/c.m3u8"])
        (fun _ => .netErr) "b").2 =
      [dirRequest, ⟨"https://h/p/b.m3u8", playlistRequestHeaders⟩] := by
  constructor
  · exact ((claim4_linear_search_404 _ (fun _ => .netErr) "ch").1 (by decide)).1
  · exact (claim4_linear_search_404 _ (fun _ => .netErr) "b").2
      [Channel.mk "a" "https://h/p/a.m3u8"] (Channel.mk "b" "https://h/p/b.m3u8")
      [Channel.mk "b" "https://h/q/c.m3u8"] rfl (by decide) rfl

/-- C5 counterexample: a directory fetch rejected with HTTP 403 makes the
relay respond 403, not 500 as the claim states. -/
theorem claim5_counterexample :
    ¬ ((getStream (DirResult.httpErr 403) (fun _ => StreamResult.netErr) "ch1").1.status
        = 500) := by
  decide

/-- C5 amended: directory fetch failures (network error, malformed JSON,
non-2xx status other than 403) yield HTTP 500; an HTTP 403 from the
directory host is mapped by the shared catch block to 403 instead. -/
theorem claim5_directory_failures
    (fetch : String → StreamResult) (requestedId : String) (s : Nat) (hs : s ≠ 403) :
    (getStream (.httpErr s) fetch requestedId).1.status = 500 ∧
    (getStream .netErr fetch requestedId).1.status = 500 ∧
    (getStream .malformed fetch requestedId).1.status = 500 ∧
    (getStream (.httpErr 403) fetch requestedId).1.status = 403 := by
  refine ⟨?_, rfl, rfl, rfl⟩
  simp [getStream, catchResponse, hs]

/-- Witness for C5's amended statement at status 404. -/
theorem claim5_witness :
    (404 : Nat) ≠ 403 ∧
    (getStream (.httpErr 404) (fun _ => .netErr) "ch1").1.status = 500 :=
  ⟨by decide, (claim5_directory_failures (fun _ => .netErr) "ch1" 404 (by decide)).1⟩

/-- C6: the split/map/join rewrite pipeline preserves the newline-split line
count, both for the rewriter under `src/` and for the spec-modelled
recursive rewriter (whose relay base, like any real host string, contains
no newline). -/
theorem claim6_line_count_preserved
    (text base relay : String) (hrelay : '\n' ∉ relay.data) :
    countLines (rewriteAllSimple base text) = countLines text ∧
    countLines (rewriteFullText text base relay) = countLines text := by
  constructor
  · unfold rewriteAllSimple
    refine countLines_joinLines_map _ _ ?_
    intro l hl
    exact nl_not_mem_rewriteLine (not_mem_of_mem_splitSep hl)
  · unfold rewriteFullText
    refine countLines_joinLines_map _ _ ?_
    intro l hl
    exact nl_not_mem_rewriteLineFull hrelay (not_mem_of_mem_splitSep hl)

/-- Witness for C6 on a playlist with a trailing newline. -/
theorem claim6_witness :
    '\n' ∉ (String.data "https://relay.example") ∧
    countLines (rewriteAllSimple "https://origin.example/path/" "#EXTM3U\nchunk0.ts\n") =
      countLines "#EXTM3U\nchunk0.ts\n" ∧
    countLines (rewriteFullText "#EXTM3U\nchunk0.ts\n" "https://origin.example/path/"
      "https://relay.example") = countLines "#EXTM3U\nchunk0.ts\n" := by
  have h := claim6_line_count_preserved "#EXTM3U\nchunk0.ts\n"
    "https://origin.example/path/" "https://relay.example" (by decide)
  exact ⟨by decide, h.1, h.2⟩

/-- C7: comment lines (beginning with `#`) and blank lines pass through both
rewriters byte-identical. -/
theorem claim7_comment_blank_identity
    (base relay line : String)
    (h : startsHash line.data = true ∨ jsTrim line.data = []) :
    rewriteLine base line = line ∧ rewriteLineFull base relay line = line := by
  have hg : guardPass line.data = true := by
    rcases h with h | h
    · rcases startsHash_eq h with ⟨xs, hxs⟩
      refine guardPass_of_trim (Or.inr ?_)
      rw [hxs, jsTrim_hash_head]
      rfl
    · exact guardPass_of_trim (Or.inl h)
  exact ⟨rewriteLine_of_guard hg, rewriteLineFull_of_guard hg⟩

/-- Witness for C7 at a directive line with embedded metadata. -/
theorem claim7_witness :
    (startsHash (String.data "#EXT-X-STREAM-INF:BANDWIDTH=800000") = true ∨
      jsTrim (String.data "#EXT-X-STREAM-INF:BANDWIDTH=800000") = []) ∧
    rewriteLine "https://origin.example/path/" "#EXT-X-STREAM-INF:BANDWIDTH=800000" =
      "#EXT-X-STREAM-INF:BANDWIDTH=800000" ∧
    rewriteLineFull "https://origin.example/path/" "https://relay.example"
      "#EXT-X-STREAM-INF:BANDWIDTH=800000" = "#EXT-X-STREAM-INF:BANDWIDTH=800000" := by
  have h := claim7_comment_blank_identity "https://origin.example/path/"
    "https://relay.example" "#EXT-X-STREAM-INF:BANDWIDTH=800000" (Or.inl (by decide))
  exact ⟨Or.inl (by decide), h.1, h.2⟩

/-- C8 counterexample: a `/get-stream` run that reaches the playlist fetch
sends exactly the three VLC headers; no Origin and no Referer header is
sent, refuting the claimed Origin/Referer pair. -/
theorem claim8_counterexample :
    (getStream (.ok [Channel.mk "ch1" "https://origin.example/path/live.m3u8"])
        (fun _ => .ok "") "ch1").2 =
      [dirRequest, ⟨"https://origin.example/path/live.m3u8", playlistRequestHeaders⟩] ∧
    playlistRequestHeaders.lookup "Origin" = none ∧
    playlistRequestHeaders.lookup "Referer" = none := by
  exact ⟨by decide, by decide, by decide⟩

/-- C8 amended: every outbound request of `/get-stream` carries either no
custom headers (the directory fetch) or exactly the fixed VLC triple
User-Agent, Accept, Connection; no Origin or Referer header is ever set. -/
theorem claim8_outbound_headers
    (dir : DirResult) (fetch : String → StreamResult) (requestedId : String) :
    (∀ r ∈ (getStream dir fetch requestedId).2,
      r.headers = [] ∨ r.headers = playlistRequestHeaders) ∧
    playlistRequestHeaders =
      [("User-Agent", "VLC/3.0.18 LibVLC/3.0.18"), ("Accept", "*/*"),
       ("Connection", "keep-alive")] ∧
    playlistRequestHeaders.lookup "Origin" = none ∧
    playlistRequestHeaders.lookup "Referer" = none := by
  refine ⟨?_, rfl, rfl, rfl⟩
  intro r hr
  cases dir with
  | ok channels =>
    cases hfind : channels.find? (fun item => item.id == requestedId) with
    | none =>
      simp [getStream, hfind] at hr
      subst hr
      exact Or.inl rfl
    | some ch =>
      cases hfetch : fetch ch.url with
      | ok body =>
        simp [getStream, hfind, hfetch] at hr
        rcases hr with hr | hr
        · subst hr; exact Or.inl rfl
        · subst hr; exact Or.inr rfl
      | httpErr s =>
        simp [getStream, hfind, hfetch] at hr
        rcases hr with hr | hr
        · subst hr; exact Or.inl rfl
        · subst hr; exact Or.inr rfl
      | netErr =>
        simp [getStream, hfind, hfetch] at hr
        rcases hr with hr | hr
        · subst hr; exact Or.inl rfl
        · subst hr; exact Or.inr rfl
  | malformed =>
    simp [getStream] at hr
    subst hr
    exact Or.inl rfl
  | httpErr s =>
    simp [getStream] at hr
    subst hr
    exact Or.inl rfl
  | netErr =>
    simp [getStream] at hr
    subst hr
    exact Or.inl rfl

/-- Witness for C8's amended statement at the directory request. -/
theorem claim8_witness :
    dirRequest ∈ (getStream (.ok []) (fun _ => .netErr) "x").2 ∧
    (dirRequest.headers = [] ∨ dirRequest.headers = playlistRequestHeaders) := by
  refine ⟨by decide, ?_⟩
  exact (claim8_outbound_headers (.ok []) (fun _ => .netErr) "x").1 dirRequest (by decide)

/-- C9 counterexample: a successful `/get-stream` response carries no cache
directive, refuting the claimed no-cache directive. -/
theorem claim9_counterexample :
    ((getStream (.ok [Channel.mk "ch1" "https://origin.example/path/live.m3u8"])
        (fun _ => .ok "#EXTM3U") "ch1").1.status = 200) ∧
    ((getStream (.ok [Channel.mk "ch1" "https://origin.example/path/live.m3u8"])
        (fun _ => .ok "#EXTM3U") "ch1").1.cacheControl = none) :=
  ⟨by decide, by decide⟩

/-- C9 amended: every 200 response of `/get-stream` carries Content-Type
`application/vnd.apple.mpegurl` and the wildcard cross-origin-allow header,
and sets no cache directive. -/
theorem claim9_success_headers
    (dir : DirResult) (fetch : String → StreamResult) (requestedId : String)
    (h200 : (getStream dir fetch requestedId).1.status = 200) :
    (getStream dir fetch requestedId).1.contentType =
      some "application/vnd.apple.mpegurl" ∧
    (getStream dir fetch requestedId).1.accessControlAllowOrigin = some "*" ∧
    (getStream dir fetch requestedId).1.cacheControl = none := by
  cases dir with
  | ok channels =>
    cases hfind : channels.find? (fun item => item.id == requestedId) with
    | none => simp [getStream, hfind] at h200
    | some ch =>
      cases hfetch : fetch ch.url with
      | ok body => simp [getStream, hfind, hfetch]
      | httpErr s =>
        by_cases hs : s = 403 <;>
          simp [getStream, hfind, hfetch, catchResponse, hs] at h200
      | netErr => simp [getStream, hfind, hfetch, catchResponse] at h200
  | malformed => simp [getStream, catchResponse] at h200
  | httpErr s =>
    by_cases hs : s = 403 <;> simp [getStream, catchResponse, hs] at h200
  | netErr => simp [getStream, catchResponse] at h200

/-- Witness for C9's amended statement on a successful run. -/
theorem claim9_witness :
    ((getStream (.ok [Channel.mk "c" "https://h/p/x.m3u8"]) (fun _ => .ok "#A") "c").1.status
      = 200) ∧
    ((getStream (.ok [Channel.mk "c" "https://h/p/x.m3u8"]) (fun _ => .ok "#A") "c").1.cacheControl
      = none) := by
  refine ⟨by decide, ?_⟩
  exact (claim9_success_headers (.ok [Channel.mk "c" "https://h/p/x.m3u8"])
    (fun _ => .ok "#A") "c" (by decide)).2.2

/-- C10: a line whose trimmed text is empty or starts with `#` passes
through both rewriters unchanged — the comment/blank classification is
applied to the trimmed line, so whitespace before `#` still makes a
comment. -/
theorem claim10_trimmed_guard_identity
    (base relay line : String)
    (h : jsTrim line.data = [] ∨ startsHash (jsTrim line.data) = true) :
    rewriteLine base line = line ∧ rewriteLineFull base relay line = line := by
  have hg := guardPass_of_trim h
  exact ⟨rewriteLine_of_guard hg, rewriteLineFull_of_guard hg⟩

/-- Witness for C10 at a line with whitespace before the `#`. -/
theorem claim10_witness :
    (jsTrim (String.data "   #EXTM3U") = [] ∨
      startsHash (jsTrim (String.data "   #EXTM3U")) = true) ∧
    rewriteLine "https://origin.example/path/" "   #EXTM3U" = "   #EXTM3U" ∧
    rewriteLineFull "https://origin.example/path/" "https://relay.example" "   #EXTM3U" =
      "   #EXTM3U" := by
  have h := claim10_trimmed_guard_identity "https://origin.example/path/"
    "https://relay.example" "   #EXTM3U" (Or.inr (by decide))
  exact ⟨Or.inr (by decide), h.1, h.2⟩

end WebFetch
